import Mathlib

/-!
Verification of the divergence-detection core of AnomalyScope
(`src/anomaly_scanner/cross_probe.py`).

Modelling conventions:
* Python strings are `List Char`; Python floats are idealised as `ℚ`.
* `difflib.SequenceMatcher(a, b).ratio()` (no junk predicate is supplied by the
  caller; the autojunk popularity heuristic only activates on inputs of length
  at least 200 and is not modelled) is the greedy longest-matching-blocks
  ratio: repeatedly take a longest common contiguous block, recurse on the
  pieces to its left and right, and return `2 * total_matched / (len a + len b)`
  (1.0 when both inputs are empty).
* `numpy.mean` / `numpy.min` and Python `max` over a nonempty list are
  `listMean` / `listMin` / `listMax` below; their empty-list cases are
  unreachable in the program (numpy and `max` raise there) and get an
  arbitrary default.
-/

namespace AnomalyScope

/-- A text string, modelled as its list of characters. -/
abbrev Str := List Char

/-- Length of the longest common prefix of two character lists: the length of
the match starting at a given pair of positions in `SequenceMatcher`'s
longest-match search. -/
def commonLen : Str → Str → Nat
  | x :: xs, y :: ys => if x = y then commonLen xs ys + 1 else 0
  | _, _ => 0

/-- All candidate matches `(i, j, k)` considered by `find_longest_match`:
positions `i` in `a`, `j` in `b`, with `k` the length of the match starting
there. -/
def candidates (a b : Str) : List (Nat × Nat × Nat) :=
  (List.range a.length).flatMap fun i =>
    (List.range b.length).map fun j => (i, j, commonLen (a.drop i) (b.drop j))

/-- Embedding of `difflib.SequenceMatcher.find_longest_match` over whole strings with no
junk: the candidate with maximal `k` (the first one encountered kept on ties),
`(0, 0, 0)` when there is no match at all. -/
def flm (a b : Str) : Nat × Nat × Nat :=
  (candidates a b).foldl (fun best c => if best.2.2 < c.2.2 then c else best) (0, 0, 0)

/-- Fuel-indexed total size of `SequenceMatcher.get_matching_blocks`: take the
longest match and recurse on the pieces to its left and to its right. Fuel
`a.length + b.length` always suffices, because each recursive call strictly
shrinks the combined length. -/
def matchingTotalF : Nat → Str → Str → Nat
  | 0, _, _ => 0
  | fuel + 1, a, b =>
    let r := flm a b
    if r.2.2 = 0 then 0
    else
      matchingTotalF fuel (a.take r.1) (b.take r.2.1) + r.2.2 +
        matchingTotalF fuel (a.drop (r.1 + r.2.2)) (b.drop (r.2.1 + r.2.2))

/-- Total number of matched characters between `a` and `b` across all matching
blocks. -/
def matchingTotal (a b : Str) : Nat :=
  matchingTotalF (a.length + b.length) a b

/-- Embedding of `ProviderRun.seq_sim` (cross_probe.py line 31):
`difflib.SequenceMatcher(a=a, b=b).ratio()`, which is
`2 * matches / (len a + len b)` and `1.0` when that denominator is zero. -/
def seq_sim (a b : Str) : ℚ :=
  if a.length + b.length = 0 then 1
  else 2 * (matchingTotal a b : ℚ) / ((a.length : ℚ) + (b.length : ℚ))

/-- Embedding of `numpy.mean` of a list of scores: sum divided by length (the empty case is
unreachable in the program). -/
def listMean (l : List ℚ) : ℚ := l.sum / (l.length : ℚ)

/-- Embedding of `numpy.min` of a list of scores (raises on `[]` in numpy; the default `0`
is unreachable in the program). -/
def listMin : List ℚ → ℚ
  | [] => 0
  | x :: xs => xs.foldl min x

/-- Python `max` over a nonempty iterable (raises on `[]`; the default `0` is
unreachable in the program). -/
def listMax : List ℚ → ℚ
  | [] => 0
  | x :: xs => xs.foldl max x

/-- The `ProviderRun` dataclass (cross_probe.py lines 22-28). -/
structure ProviderRun where
  name : String
  responses : List Str
  pairwise : List (Nat × Nat × ℚ)
  mean_similarity : ℚ
  min_similarity : ℚ
deriving Repr, DecidableEq

/-- Embedding of `ProviderRun.from_responses` (cross_probe.py lines 34-48): all pairwise
similarities over index pairs `i < j`, then `scores = [s for ... ] or [1.0]`,
`mean_similarity = np.mean(scores)`, `min_similarity = np.min(scores)`. -/
def from_responses (name : String) (responses : List Str) : ProviderRun :=
  let n := responses.length
  let sims : List (Nat × Nat × ℚ) :=
    (List.range n).flatMap fun i =>
      (List.range' (i + 1) (n - (i + 1))).map fun j =>
        (i, j, seq_sim (responses.getD i []) (responses.getD j []))
  let scores : List ℚ := if sims = [] then [1] else sims.map fun s => s.2.2
  { name := name, responses := responses, pairwise := sims,
    mean_similarity := listMean scores,
    min_similarity := listMin scores }

/-- Embedding of `cross_similarity` (cross_probe.py lines 51-62): average best-match
similarity across two response sets, `1.0` when either set is empty. -/
def cross_similarity (a b : List Str) : ℚ :=
  if a = [] ∨ b = [] then 1
  else
    let totals : List ℚ :=
      (a.map fun ai => listMax (b.map fun bj => seq_sim ai bj)) ++
        b.map fun bj => listMax (a.map fun ai => seq_sim bj ai)
    if totals = [] then 1 else listMean totals

/-- Embedding of `classify` (cross_probe.py lines 65-79). The `within` dict is modelled as
an association list of provider name to `ProviderRun`; only its values are
read. `0.60` is the literal constant of line 73. -/
def classify (sep_cross : ℚ) (within : List (String × ProviderRun))
    (threshold : ℚ) : String :=
  if sep_cross < 60 / 100 then "high"
  else if sep_cross < threshold then "medium"
  else if within.any fun p => decide (p.2.mean_similarity < threshold) then "low"
  else "none"

/-- Severity rank under the spec's total order none < low < medium < high. -/
def sevRank (s : String) : Nat :=
  if s = "high" then 3 else if s = "medium" then 2 else if s = "low" then 1 else 0

/-- Modelled from the spec: the decision policy of spec section 4.4 as an
ordered list of (guard, outcome) rules, to be read first-match-first. -/
def specRules (cross_score threshold : ℚ)
    (within : List (String × ProviderRun)) : List (Bool × String) :=
  [(decide (cross_score < 60 / 100), "high"),
    (decide (cross_score < threshold), "medium"),
    (within.any fun p => decide (p.2.mean_similarity < threshold), "low"),
    (true, "none")]

/-- First-match-wins evaluation of an ordered rule list. -/
def firstMatch : List (Bool × String) → String
  | [] => "none"
  | (g, s) :: rest => if g then s else firstMatch rest

/-- Metadata mapping of the anomaly record (cross_probe.py lines 149-164). -/
structure CardMeta where
  prompt : String
  threshold : ℚ
  providers : List String
  runs : Nat
  temperature : ℚ
  samples : List (String × List Str)
  cross_similarity : ℚ
  within : List (String × ℚ × ℚ)
deriving Repr, DecidableEq

/-- Modelled from the spec: the `AnomalyCard` record type is imported from
`reporting.generator`, whose source here only contains an unrelated helper;
spec section 3 (AnomalyRecord) gives its shape: identifier, free-text
description, severity, UTC timestamp, metadata mapping. The free-text
description (a formatted sentence, spec section 4.5) is not modelled, since
no claim concerns it and decimal formatting of floats is out of scope. -/
structure AnomalyCard where
  id : String
  severity : String
  timestamp : String
  meta : CardMeta
deriving Repr, DecidableEq

/-- Dictionary lookup `runs[k]` on the insertion-ordered mapping of provider
name to `ProviderRun` (Python dict keys are unique, so first match equals the
dict entry; the default is unreachable since `k` is always a key of `runs`). -/
def lookupRun (runs : List (String × ProviderRun)) (k : String) : ProviderRun :=
  match runs.find? fun p => p.1 = k with
  | some p => p.2
  | none => ⟨"", [], [], 0, 0⟩

/-- The cross-provider similarity computed by `main` (cross_probe.py lines
128-132): `cross_similarity(runs[a].responses, runs[b].responses)` for the
first two provider names. -/
def probeCross (runs : List (String × ProviderRun)) : ℚ :=
  let names := runs.map Prod.fst
  cross_similarity (lookupRun runs (names.getD 0 "")).responses
    (lookupRun runs (names.getD 1 "")).responses

/-- The severity computed by `main` (cross_probe.py line 135):
`classify(cross_sim, runs, args.threshold)`. -/
def probeSeverity (runs : List (String × ProviderRun)) (threshold : ℚ) : String :=
  classify (probeCross runs) runs threshold

/-- The record-building portion of `main` (cross_probe.py lines 128-165):
fail when fewer than two provider response collections were collected
(`raise RuntimeError(...)`, the spec's ConfigurationError), otherwise build
the `AnomalyCard`, remapping severity "none" to "low" (line 147). The
timestamp is passed in, since the source captures it from the clock. -/
def buildRecord (runs : List (String × ProviderRun)) (threshold : ℚ)
    (prompt : String) (nruns : Nat) (temperature : ℚ) (now : String) :
    Except String AnomalyCard :=
  let names := runs.map Prod.fst
  if names.length < 2 then
    Except.error "Need at least two providers for cross-provider drift."
  else
    let a := names.getD 0 ""
    let b := names.getD 1 ""
    let ra := lookupRun runs a
    let rb := lookupRun runs b
    let cross_sim := probeCross runs
    let severity := probeSeverity runs threshold
    Except.ok
      { id := a.toUpper ++ "-vs-" ++ b.toUpper ++ "-DIVERGENCE",
        severity := if severity ≠ "none" then severity else "low",
        timestamp := now,
        meta :=
          { prompt := prompt, threshold := threshold, providers := names,
            runs := nruns, temperature := temperature,
            samples := [(a, ra.responses.take 3), (b, rb.responses.take 3)],
            cross_similarity := cross_sim,
            within := [(a, ra.mean_similarity, ra.min_similarity),
              (b, rb.mean_similarity, rb.min_similarity)] } }

/-! Lemmas about the longest-matching-blocks machinery. -/

lemma commonLen_le_left (a b : Str) : commonLen a b ≤ a.length := by
  induction a generalizing b with
  | nil => cases b <;> simp [commonLen]
  | cons x xs ih =>
    cases b with
    | nil => simp [commonLen]
    | cons y ys =>
      simp only [commonLen, List.length_cons]
      split
      · exact Nat.succ_le_succ (ih ys)
      · exact Nat.zero_le _

lemma commonLen_le_right (a b : Str) : commonLen a b ≤ b.length := by
  induction a generalizing b with
  | nil => cases b <;> simp [commonLen]
  | cons x xs ih =>
    cases b with
    | nil => simp [commonLen]
    | cons y ys =>
      simp only [commonLen, List.length_cons]
      split
      · exact Nat.succ_le_succ (ih ys)
      · exact Nat.zero_le _

lemma commonLen_self (a : Str) : commonLen a a = a.length := by
  induction a with
  | nil => rfl
  | cons x xs ih => simp [commonLen, ih]

lemma mem_candidates {a b : Str} {c : Nat × Nat × Nat} (h : c ∈ candidates a b) :
    c.1 < a.length ∧ c.2.1 < b.length ∧
      c.2.2 = commonLen (a.drop c.1) (b.drop c.2.1) := by
  simp only [candidates, List.mem_flatMap, List.mem_map, List.mem_range] at h
  obtain ⟨i, hi, j, hj, rfl⟩ := h
  exact ⟨hi, hj, rfl⟩

lemma flm_spec (a b : Str) :
    flm a b = (0, 0, 0) ∨
      ((flm a b).1 < a.length ∧ (flm a b).2.1 < b.length ∧
        (flm a b).2.2 = commonLen (a.drop (flm a b).1) (b.drop (flm a b).2.1)) := by
  unfold flm
  refine List.foldlRecOn
    (motive := fun r => r = (0, 0, 0) ∨
      (r.1 < a.length ∧ r.2.1 < b.length ∧
        r.2.2 = commonLen (a.drop r.1) (b.drop r.2.1)))
    (candidates a b) _ (0, 0, 0) (Or.inl rfl) ?_
  intro best hbest c hc
  by_cases h : best.2.2 < c.2.2
  · simp only [h, if_pos]
    exact Or.inr (mem_candidates hc)
  · simp only [h, if_neg, not_false_iff]
    exact hbest

lemma foldl_pick_ge (l : List (Nat × Nat × Nat)) (init : Nat × Nat × Nat) :
    init.2.2 ≤ (l.foldl (fun best c => if best.2.2 < c.2.2 then c else best) init).2.2 ∧
      ∀ c ∈ l, c.2.2 ≤ (l.foldl (fun best c => if best.2.2 < c.2.2 then c else best) init).2.2 := by
  induction l generalizing init with
  | nil => exact ⟨le_refl _, by intro c hc; cases hc⟩
  | cons x xs ih =>
    simp only [List.foldl_cons]
    have hstep : init.2.2 ≤ (if init.2.2 < x.2.2 then x else init).2.2 ∧
        x.2.2 ≤ (if init.2.2 < x.2.2 then x else init).2.2 := by
      by_cases h : init.2.2 < x.2.2
      · simp [h, Nat.le_of_lt h]
      · simp [h, Nat.le_of_not_lt h]
    refine ⟨le_trans hstep.1 (ih _).1, ?_⟩
    intro c hc
    rcases List.mem_cons.mp hc with rfl | hc
    · exact le_trans hstep.2 (ih _).1
    · exact (ih _).2 c hc

lemma flm_ge {a b : Str} {c : Nat × Nat × Nat} (hc : c ∈ candidates a b) :
    c.2.2 ≤ (flm a b).2.2 :=
  (foldl_pick_ge (candidates a b) (0, 0, 0)).2 c hc

lemma flm_add_le_left (a b : Str) : (flm a b).1 + (flm a b).2.2 ≤ a.length := by
  rcases flm_spec a b with h | ⟨h1, _, h3⟩
  · simp [h]
  · have := commonLen_le_left (a.drop (flm a b).1) (b.drop (flm a b).2.1)
    rw [List.length_drop] at this
    omega

lemma flm_add_le_right (a b : Str) : (flm a b).2.1 + (flm a b).2.2 ≤ b.length := by
  rcases flm_spec a b with h | ⟨_, h2, h3⟩
  · simp [h]
  · have := commonLen_le_right (a.drop (flm a b).1) (b.drop (flm a b).2.1)
    rw [List.length_drop] at this
    omega

lemma matchingTotalF_le (fuel : Nat) :
    ∀ a b : Str, matchingTotalF fuel a b ≤ min a.length b.length := by
  induction fuel with
  | zero => intro a b; simp [matchingTotalF]
  | succ fuel ih =>
    intro a b
    simp only [matchingTotalF]
    split
    · exact Nat.zero_le _
    · have hl := flm_add_le_left a b
      have hr := flm_add_le_right a b
      have h1 := ih (a.take (flm a b).1) (b.take (flm a b).2.1)
      have h2 := ih (a.drop ((flm a b).1 + (flm a b).2.2))
        (b.drop ((flm a b).2.1 + (flm a b).2.2))
      simp only [List.length_take, List.length_drop] at h1 h2
      refine Nat.le_min.mpr ⟨?_, ?_⟩ <;> omega

lemma matchingTotal_le (a b : Str) : matchingTotal a b ≤ min a.length b.length :=
  matchingTotalF_le _ a b

lemma candidates_nil_left (b : Str) : candidates [] b = [] := by
  simp [candidates]

lemma candidates_nil_right (a : Str) : candidates a [] = [] := by
  simp [candidates]

lemma flm_nil_left (b : Str) : flm [] b = (0, 0, 0) := by
  simp [flm, candidates_nil_left]

lemma flm_nil_right (a : Str) : flm a [] = (0, 0, 0) := by
  simp [flm, candidates_nil_right]

lemma matchingTotalF_nil_left (fuel : Nat) (b : Str) :
    matchingTotalF fuel [] b = 0 := by
  cases fuel with
  | zero => rfl
  | succ fuel => simp [matchingTotalF, flm_nil_left]

lemma matchingTotalF_nil_right (fuel : Nat) (a : Str) :
    matchingTotalF fuel a [] = 0 := by
  cases fuel with
  | zero => rfl
  | succ fuel => simp [matchingTotalF, flm_nil_right]

lemma flm_self {x : Str} (hx : x ≠ []) : flm x x = (0, 0, x.length) := by
  have hpos : 0 < x.length := List.length_pos.mpr hx
  have hmem : (0, 0, commonLen x x) ∈ candidates x x := by
    simp only [candidates, List.mem_flatMap, List.mem_map, List.mem_range]
    exact ⟨0, hpos, 0, hpos, by simp⟩
  have hge : x.length ≤ (flm x x).2.2 := by
    have := flm_ge hmem
    simpa [commonLen_self] using this
  rcases flm_spec x x with h | ⟨h1, h2, h3⟩
  · have h0 : ((0, 0, 0) : Nat × Nat × Nat).2.2 = 0 := rfl
    rw [h, h0] at hge
    omega
  · have hkle : (flm x x).2.2 ≤ x.length - (flm x x).1 := by
      have := commonLen_le_left (x.drop (flm x x).1) (x.drop (flm x x).2.1)
      rw [List.length_drop] at this
      omega
    have hi : (flm x x).1 = 0 := by omega
    have hj : (flm x x).2.1 = 0 := by
      have hkle' : (flm x x).2.2 ≤ x.length - (flm x x).2.1 := by
        have := commonLen_le_right (x.drop (flm x x).1) (x.drop (flm x x).2.1)
        rw [List.length_drop] at this
        omega
      omega
    have hk : (flm x x).2.2 = x.length := by
      have := flm_add_le_left x x
      omega
    have : flm x x = ((flm x x).1, (flm x x).2.1, (flm x x).2.2) := rfl
    rw [this, hi, hj, hk]

lemma matchingTotal_self (x : Str) : matchingTotal x x = x.length := by
  rcases eq_or_ne x [] with rfl | hx
  · rfl
  · have hpos : 0 < x.length := List.length_pos.mpr hx
    obtain ⟨m, hm⟩ : ∃ m, x.length + x.length = m + 1 :=
      ⟨x.length + x.length - 1, by omega⟩
    unfold matchingTotal
    rw [hm]
    simp only [matchingTotalF, flm_self hx]
    have hk : x.length ≠ 0 := by omega
    simp [hk, matchingTotalF_nil_left, List.drop_length]

/-! Lemmas about `seq_sim`. -/

lemma seq_sim_self {x : Str} (hx : x ≠ []) : seq_sim x x = 1 := by
  have hpos : 0 < x.length := List.length_pos.mpr hx
  have hne : x.length + x.length ≠ 0 := by omega
  rw [seq_sim, if_neg hne, matchingTotal_self]
  have : ((x.length : ℚ) + (x.length : ℚ)) ≠ 0 := by
    have : (0 : ℚ) < (x.length : ℚ) := by exact_mod_cast hpos
    linarith
  field_simp
  ring

lemma seq_sim_nil_nil : seq_sim [] [] = 1 := rfl

lemma seq_sim_nil_left {x : Str} (hx : x ≠ []) : seq_sim [] x = 0 := by
  have hpos : 0 < x.length := List.length_pos.mpr hx
  have hne : ([] : Str).length + x.length ≠ 0 := by
    simp only [List.length_nil, Nat.zero_add]; omega
  rw [seq_sim, if_neg hne]
  unfold matchingTotal
  rw [matchingTotalF_nil_left]
  simp

lemma seq_sim_nil_right {x : Str} (hx : x ≠ []) : seq_sim x [] = 0 := by
  have hpos : 0 < x.length := List.length_pos.mpr hx
  have hne : x.length + ([] : Str).length ≠ 0 := by
    simp only [List.length_nil, Nat.add_zero]; omega
  rw [seq_sim, if_neg hne]
  unfold matchingTotal
  rw [matchingTotalF_nil_right]
  simp

lemma seq_sim_nonneg (a b : Str) : 0 ≤ seq_sim a b := by
  rw [seq_sim]
  split
  · norm_num
  · apply div_nonneg
    · positivity
    · positivity

lemma seq_sim_le_one (a b : Str) : seq_sim a b ≤ 1 := by
  rw [seq_sim]
  split
  · norm_num
  · rename_i h
    have hM := matchingTotal_le a b
    have h2 : 2 * matchingTotal a b ≤ a.length + b.length := by
      have := Nat.min_le_left a.length b.length
      have := Nat.min_le_right a.length b.length
      omega
    have hden : (0 : ℚ) < (a.length : ℚ) + (b.length : ℚ) := by
      have : 0 < a.length + b.length := Nat.pos_of_ne_zero h
      exact_mod_cast this
    rw [div_le_one hden]
    exact_mod_cast h2

/-! Lemmas about `listMin` and `listMean`. -/

lemma foldl_min_le_init (xs : List ℚ) (x : ℚ) : xs.foldl min x ≤ x := by
  induction xs generalizing x with
  | nil => exact le_refl x
  | cons y ys ih =>
    simp only [List.foldl_cons]
    exact le_trans (ih (min x y)) (min_le_left x y)

lemma foldl_min_le_mem (xs : List ℚ) (x : ℚ) :
    ∀ y ∈ xs, xs.foldl min x ≤ y := by
  induction xs generalizing x with
  | nil => intro y hy; cases hy
  | cons z zs ih =>
    intro y hy
    rcases List.mem_cons.mp hy with rfl | hy
    · simp only [List.foldl_cons]
      exact le_trans (foldl_min_le_init zs (min x y)) (min_le_right x y)
    · exact ih (min x z) y hy

lemma foldl_min_mem_or (xs : List ℚ) (x : ℚ) :
    xs.foldl min x = x ∨ xs.foldl min x ∈ xs := by
  induction xs generalizing x with
  | nil => exact Or.inl rfl
  | cons y ys ih =>
    simp only [List.foldl_cons]
    rcases ih (min x y) with h | h
    · rcases min_choice x y with hm | hm
      · exact Or.inl (h.trans hm)
      · exact Or.inr (List.mem_cons.mpr (Or.inl (h.trans hm)))
    · exact Or.inr (List.mem_cons.mpr (Or.inr h))

lemma listMin_le {l : List ℚ} {y : ℚ} (hy : y ∈ l) : listMin l ≤ y := by
  cases l with
  | nil => cases hy
  | cons x xs =>
    rcases List.mem_cons.mp hy with rfl | hy
    · exact foldl_min_le_init xs y
    · exact foldl_min_le_mem xs x y hy

lemma listMin_mem {l : List ℚ} (hl : l ≠ []) : listMin l ∈ l := by
  cases l with
  | nil => exact absurd rfl hl
  | cons x xs =>
    rcases foldl_min_mem_or xs x with h | h
    · exact List.mem_cons.mpr (Or.inl h)
    · exact List.mem_cons.mpr (Or.inr h)

lemma listMean_le {l : List ℚ} {c : ℚ} (hl : l ≠ [])
    (h : ∀ x ∈ l, x ≤ c) : listMean l ≤ c := by
  have hlen : 0 < l.length := List.length_pos.mpr hl
  have hlenQ : (0 : ℚ) < (l.length : ℚ) := by exact_mod_cast hlen
  have hsum : l.sum ≤ (l.length : ℚ) * c := by
    have := List.sum_le_card_nsmul l c h
    simpa [nsmul_eq_mul] using this
  rw [listMean, div_le_iff₀ hlenQ]
  linarith

lemma le_listMean {l : List ℚ} {c : ℚ} (hl : l ≠ [])
    (h : ∀ x ∈ l, c ≤ x) : c ≤ listMean l := by
  have hlen : 0 < l.length := List.length_pos.mpr hl
  have hlenQ : (0 : ℚ) < (l.length : ℚ) := by exact_mod_cast hlen
  have hsum : (l.length : ℚ) * c ≤ l.sum := by
    have := List.card_nsmul_le_sum l c h
    simpa [nsmul_eq_mul] using this
  rw [listMean, le_div_iff₀ hlenQ]
  linarith

/-! Facts about the pairwise score list built by `from_responses`. -/

lemma mem_pairwise_scores {name : String} {responses : List Str} {t : Nat × Nat × ℚ}
    (ht : t ∈ (from_responses name responses).pairwise) :
    t.2.2 = seq_sim (responses.getD t.1 []) (responses.getD t.2.1 []) := by
  simp only [from_responses, List.mem_flatMap, List.mem_map, List.mem_range] at ht
  obtain ⟨i, _, j, _, rfl⟩ := ht
  rfl

lemma from_responses_stats (name : String) (rs : List Str) :
    ∃ scores : List ℚ, scores ≠ [] ∧
      (∀ s ∈ scores, 0 ≤ s ∧ s ≤ 1) ∧
      (from_responses name rs).mean_similarity = listMean scores ∧
      (from_responses name rs).min_similarity = listMin scores := by
  refine ⟨if (from_responses name rs).pairwise = [] then [1]
    else (from_responses name rs).pairwise.map fun s => s.2.2, ?_, ?_, ?_, ?_⟩
  · split
    · simp
    · rename_i h
      simpa using h
  · intro s hs
    split at hs
    · have : s = 1 := by simpa using hs
      subst this
      norm_num
    · simp only [List.mem_map] at hs
      obtain ⟨t, ht, rfl⟩ := hs
      rw [mem_pairwise_scores ht]
      exact ⟨seq_sim_nonneg _ _, seq_sim_le_one _ _⟩
  · simp only [from_responses]
  · simp only [from_responses]

lemma listMean_append_comm (l1 l2 : List ℚ) :
    listMean (l1 ++ l2) = listMean (l2 ++ l1) := by
  simp only [listMean, List.sum_append, List.length_append]
  rw [add_comm l1.sum, add_comm l1.length]

/-! The claims. -/

/-- C5: the pairwise similarity function gives `similarity(x, x) = 1.0` for
every non-empty string `x`, `similarity(∅, ∅) = 1.0`, and similarity of the
empty string with a non-empty string (in either order) is `0.0`; all these
inputs are handled totally. -/
theorem seq_sim_identity_and_empty (x : Str) (hx : x ≠ []) :
    seq_sim x x = 1 ∧ seq_sim [] [] = 1 ∧ seq_sim [] x = 0 ∧ seq_sim x [] = 0 :=
  ⟨seq_sim_self hx, seq_sim_nil_nil, seq_sim_nil_left hx, seq_sim_nil_right hx⟩

/-- Witness for C5 at the concrete one-character string "a". -/
theorem seq_sim_identity_and_empty_witness :
    seq_sim ['a'] ['a'] = 1 ∧ seq_sim [] [] = 1 ∧
      seq_sim [] ['a'] = 0 ∧ seq_sim ['a'] [] = 0 :=
  seq_sim_identity_and_empty ['a'] (by decide)

/-- C6: for every response set of length 0 or 1, the intra-provider
consistency analyzer produces `mean_similarity = 1.0` and
`min_similarity = 1.0`. -/
theorem from_responses_degenerate (name : String) (rs : List Str)
    (h : rs.length ≤ 1) :
    (from_responses name rs).mean_similarity = 1 ∧
      (from_responses name rs).min_similarity = 1 := by
  match rs with
  | [] =>
    constructor
    · simp [from_responses, listMean]
    · simp [from_responses, listMin]
  | [r] =>
    constructor
    · simp [from_responses, listMean, List.range_succ]
    · simp [from_responses, listMin, List.range_succ]
  | a :: b :: t => simp at h

/-- Witness for C6 at the concrete empty response set. -/
theorem from_responses_degenerate_witness :
    (from_responses "p" []).mean_similarity = 1 ∧
      (from_responses "p" []).min_similarity = 1 :=
  from_responses_degenerate "p" [] (by decide)

/-- C7: the cross-provider divergence function returns exactly 1.0 whenever
either response set is empty. -/
theorem cross_similarity_empty (a b : List Str) (h : a = [] ∨ b = []) :
    cross_similarity a b = 1 := by
  rw [cross_similarity, if_pos h]

/-- Witness for C7 with an empty first set and a nonempty second set. -/
theorem cross_similarity_empty_witness : cross_similarity [] [['a']] = 1 :=
  cross_similarity_empty [] [['a']] (Or.inl rfl)

/-- C2: the cross-provider divergence function is symmetric in its two
response sets. -/
theorem cross_similarity_symm (a b : List Str) :
    cross_similarity a b = cross_similarity b a := by
  by_cases h : a = [] ∨ b = []
  · rw [cross_similarity, cross_similarity, if_pos h, if_pos h.symm]
  · have h' : ¬(b = [] ∨ a = []) := fun hc => h hc.symm
    rw [cross_similarity, cross_similarity, if_neg h, if_neg h']
    simp only []
    set l1 : List ℚ := a.map fun ai => listMax (b.map fun bj => seq_sim ai bj) with hl1
    set l2 : List ℚ := b.map fun bj => listMax (a.map fun ai => seq_sim bj ai) with hl2
    have hemp : (l1 ++ l2 = []) ↔ (l2 ++ l1 = []) := by
      constructor <;> intro hh <;>
        simp only [List.append_eq_nil] at hh ⊢ <;> exact ⟨hh.2, hh.1⟩
    by_cases he : l1 ++ l2 = []
    · rw [if_pos he, if_pos (hemp.mp he)]
    · rw [if_neg he, if_neg (fun hh => he (hemp.mpr hh))]
      exact listMean_append_comm l1 l2

/-- C9: for every response set, the produced `ProviderConsistency` statistics
satisfy `0 ≤ min_similarity ≤ mean_similarity ≤ 1`. -/
theorem from_responses_bounds (name : String) (rs : List Str) :
    0 ≤ (from_responses name rs).min_similarity ∧
      (from_responses name rs).min_similarity ≤
        (from_responses name rs).mean_similarity ∧
      (from_responses name rs).mean_similarity ≤ 1 := by
  obtain ⟨scores, hne, hb, hmean, hmin⟩ := from_responses_stats name rs
  rw [hmean, hmin]
  refine ⟨(hb _ (listMin_mem hne)).1, ?_, ?_⟩
  · exact le_listMean hne fun x hx => listMin_le hx
  · exact listMean_le hne fun x hx => (hb x hx).2

/-- C1: the severity classifier is exactly first-match evaluation of the
ordered rule list high / medium / low / none of spec section 4.4, and its
"high" outcome is governed by the fixed literal 0.60 alone, independent of
the configurable threshold. -/
theorem classify_first_match (s : ℚ) (w : List (String × ProviderRun))
    (t : ℚ) (_h0 : 0 < t) (_h1 : t ≤ 1) :
    classify s w t = firstMatch (specRules s t w) ∧
      (classify s w t = "high" ↔ s < 60 / 100) := by
  constructor
  · by_cases h1 : s < 60 / 100
    · simp [classify, firstMatch, specRules, h1]
    · by_cases h2 : s < t
      · simp [classify, firstMatch, specRules, h1, h2]
      · by_cases h3 : w.any fun p => decide (p.2.mean_similarity < t)
        · simp [classify, firstMatch, specRules, h1, h2, h3]
        · simp [classify, firstMatch, specRules, h1, h2, h3]
  · unfold classify
    by_cases h1 : s < 60 / 100
    · simp [h1]
    · by_cases h2 : s < t
      · simp [h1, h2]
      · by_cases h3 : w.any fun p => decide (p.2.mean_similarity < t)
        · simp [h1, h2, h3]
        · simp [h1, h2, h3]

/-- Witness for C1 at score 1, empty consistency map, threshold 1. -/
theorem classify_first_match_witness :
    classify 1 [] 1 = firstMatch (specRules 1 1 []) ∧
      (classify 1 [] 1 = "high" ↔ (1 : ℚ) < 60 / 100) :=
  classify_first_match 1 [] 1 (by decide) (by decide)

/-- Every severity rank is at most 3. -/
lemma sevRank_le_three (s : String) : sevRank s ≤ 3 := by
  unfold sevRank
  split_ifs <;> norm_num

/-- C8: the severity classifier is antitone in the cross-provider score for
fixed consistency inputs and threshold: a lower score never gets a lower
severity, under the order none < low < medium < high. -/
theorem classify_monotone (w : List (String × ProviderRun)) (t : ℚ)
    (s1 s2 : ℚ) (h : s1 ≤ s2) :
    sevRank (classify s2 w t) ≤ sevRank (classify s1 w t) := by
  unfold classify
  by_cases h2 : s2 < 60 / 100
  · have h1 : s1 < 60 / 100 := lt_of_le_of_lt h h2
    simp [h1, h2]
  · by_cases h1 : s1 < 60 / 100
    · simp only [h1, if_pos, if_neg h2]
      split_ifs <;> exact sevRank_le_three _
    · by_cases h4 : s2 < t
      · have h3 : s1 < t := lt_of_le_of_lt h h4
        simp [h1, h2, h3, h4]
      · by_cases h3 : s1 < t
        · simp only [h1, h2, h3, h4, if_pos, if_neg, not_false_iff]
          split_ifs <;> simp [sevRank]
        · simp [h1, h2, h3, h4]

/-- Witness for C8 at scores 0 ≤ 1, threshold 1, empty consistency map. -/
theorem classify_monotone_witness :
    sevRank (classify 1 [] 1) ≤ sevRank (classify 0 [] 1) :=
  classify_monotone [] 1 0 1 (by decide)

/-- The `any` test of `classify` only reads each provider's mean
similarity. -/
lemma any_mean_congr (t : ℚ) :
    ∀ w1 w2 : List (String × ProviderRun),
      w1.map (fun p => (p.1, p.2.mean_similarity)) =
        w2.map (fun p => (p.1, p.2.mean_similarity)) →
      (w1.any fun p => decide (p.2.mean_similarity < t)) =
        (w2.any fun p => decide (p.2.mean_similarity < t)) := by
  intro w1
  induction w1 with
  | nil =>
    intro w2 h
    cases w2 with
    | nil => rfl
    | cons y ys => simp at h
  | cons x xs ih =>
    intro w2 h
    cases w2 with
    | nil => simp at h
    | cons y ys =>
      simp only [List.map_cons, List.cons.injEq] at h
      obtain ⟨hxy, hts⟩ := h
      have hmean : x.2.mean_similarity = y.2.mean_similarity :=
        congrArg Prod.snd hxy
      simp only [List.any_cons, hmean, ih ys hts]

/-- C10: the classifier's output is independent of every provider's
`min_similarity`: two consistency mappings over the same provider names
agreeing on each `mean_similarity` yield the same severity, for every score
and threshold. -/
theorem classify_min_independent (s t : ℚ)
    (w1 w2 : List (String × ProviderRun))
    (h : w1.map (fun p => (p.1, p.2.mean_similarity)) =
      w2.map (fun p => (p.1, p.2.mean_similarity))) :
    classify s w1 t = classify s w2 t := by
  unfold classify
  rw [any_mean_congr t w1 w2 h]

/-- Witness for C10: two concrete maps differing only in `min_similarity`. -/
theorem classify_min_independent_witness :
    classify (1 / 2)
        [("p", ⟨"p", [], [], 1, 1⟩), ("q", ⟨"q", [], [], 1, 0⟩)] (85 / 100) =
      classify (1 / 2)
        [("p", ⟨"p", [], [], 1, 0⟩), ("q", ⟨"q", [], [], 1, 1⟩)] (85 / 100) :=
  classify_min_independent (1 / 2) (85 / 100) _ _ rfl

/-- C3: the record builder fails (with the spec's ConfigurationError, the
source's `RuntimeError`) exactly when fewer than two named provider response
collections are supplied; with at least two it builds a record and raises no
error. -/
theorem buildRecord_requires_two_providers
    (runs : List (String × ProviderRun)) (t : ℚ) (p : String) (n : Nat)
    (temp : ℚ) (now : String) :
    ((∃ msg, buildRecord runs t p n temp now = Except.error msg) ↔
        runs.length < 2) ∧
      ((∃ card, buildRecord runs t p n temp now = Except.ok card) ↔
        2 ≤ runs.length) := by
  unfold buildRecord
  by_cases hlen : (runs.map Prod.fst).length < 2
  · rw [if_pos hlen]
    rw [List.length_map] at hlen
    constructor
    · exact ⟨fun _ => hlen, fun _ => ⟨_, rfl⟩⟩
    · constructor
      · rintro ⟨card, hcard⟩
        exact Except.noConfusion hcard
      · intro hge
        omega
  · rw [if_neg hlen]
    rw [List.length_map] at hlen
    constructor
    · constructor
      · rintro ⟨msg, hmsg⟩
        exact Except.noConfusion hmsg
      · intro hlt
        omega
    · exact ⟨fun _ => by omega, fun _ => ⟨_, rfl⟩⟩

/-- Witness for C3: one provider fails, two providers succeed. -/
theorem buildRecord_requires_two_providers_witness :
    (∃ msg, buildRecord [("openai", from_responses "openai" [])] 1 "p" 3 1 "ts"
        = Except.error msg) ∧
      (∃ card,
        buildRecord
            [("openai", from_responses "openai" []),
              ("anthropic", from_responses "anthropic" [])] 1 "p" 3 1 "ts"
          = Except.ok card) :=
  ⟨(buildRecord_requires_two_providers _ 1 "p" 3 1 "ts").1.mpr (by decide),
    (buildRecord_requires_two_providers _ 1 "p" 3 1 "ts").2.mpr (by decide)⟩

/-- C4: the severity stored in the constructed record is the classifier's
output with outcome "none" remapped to "low", and is therefore never
"none". -/
theorem buildRecord_severity_remap
    (runs : List (String × ProviderRun)) (t : ℚ) (p : String) (n : Nat)
    (temp : ℚ) (now : String) :
    (buildRecord runs t p n temp now).map (fun c => c.severity) =
        (if runs.length < 2 then
          Except.error "Need at least two providers for cross-provider drift."
        else Except.ok (if probeSeverity runs t = "none" then "low"
          else probeSeverity runs t)) ∧
      (buildRecord runs t p n temp now).map (fun c => c.severity) ≠
        Except.ok "none" := by
  have hchar : (buildRecord runs t p n temp now).map (fun c => c.severity) =
      (if runs.length < 2 then
        Except.error "Need at least two providers for cross-provider drift."
      else Except.ok (if probeSeverity runs t = "none" then "low"
        else probeSeverity runs t)) := by
    unfold buildRecord
    simp only [List.length_map]
    by_cases hlen : runs.length < 2
    · rw [if_pos hlen, if_pos hlen]
      rfl
    · rw [if_neg hlen, if_neg hlen]
      show Except.ok (if probeSeverity runs t ≠ "none" then probeSeverity runs t
        else "low") = _
      by_cases hs : probeSeverity runs t = "none"
      · simp [hs]
      · simp [hs]
  refine ⟨hchar, ?_⟩
  rw [hchar]
  by_cases hlen : runs.length < 2
  · simp [hlen]
  · rw [if_neg hlen]
    by_cases hs : probeSeverity runs t = "none"
    · simp [hs]
    · simp only [hs, if_neg, not_false_iff, ne_eq, Except.ok.injEq]

/-- Witness for C4 at a concrete two-provider input. -/
theorem buildRecord_severity_remap_witness :
    (buildRecord
          [("openai", from_responses "openai" []),
            ("anthropic", from_responses "anthropic" [])] 1 "p" 3 1 "ts").map
        (fun c => c.severity) =
        (if ([("openai", from_responses "openai" []),
            ("anthropic", from_responses "anthropic" [])].length < 2) then
          Except.error "Need at least two providers for cross-provider drift."
        else Except.ok (if probeSeverity
            [("openai", from_responses "openai" []),
              ("anthropic", from_responses "anthropic" [])] 1 = "none" then "low"
          else probeSeverity
            [("openai", from_responses "openai" []),
              ("anthropic", from_responses "anthropic" [])] 1)) ∧
      (buildRecord
          [("openai", from_responses "openai" []),
            ("anthropic", from_responses "anthropic" [])] 1 "p" 3 1 "ts").map
        (fun c => c.severity) ≠ Except.ok "none" :=
  buildRecord_severity_remap _ 1 "p" 3 1 "ts"

end AnomalyScope
